import Mathlib

/-!
Verification development for the expense-tracker repository.

The core logic lives in `analysis.py` (record normalisation, spending
analysis, natural-language parsing) and `app.py` (a second normaliser
`df_from_rows` and the timeframe filter `filter_by_timeframe`).  This file
gives a shallow embedding of those functions and proves the specification
claims about them.

Modelling conventions:
* pandas `Timestamp` / Python `datetime` values are modelled by the
  `Timestamp` structure below: calendar fields plus an abstract
  time-of-day component `tod` (a `Nat`, e.g. nanoseconds since midnight);
  timestamps compare lexicographically, exactly as real timestamps on the
  same timeline do.
* `NaN` / `NaT` / missing values are modelled with `Option`: the raw value
  of a cell is the *parse result* the corresponding pandas conversion
  (`pd.to_numeric(..., errors="coerce")`, `pd.to_datetime(..., errors="coerce")`)
  would produce — `none` for an unparsable / missing value.
* numeric amounts are `ℚ` (the Python floats are decimal literals here;
  float rounding is not at issue in any claim).
* string handling (`lower`, `strip`, `title`) is modelled for the ASCII
  range, which covers the fixed vocabulary and message strings of the code.
-/

/-- A `pd.Timestamp` / `datetime`: calendar date plus time of day.
`tod` abstracts hours/minutes/seconds/… as a single number of
sub-day units since midnight.  Ordering is lexicographic. -/
structure Timestamp where
  year : Int
  month : Nat
  day : Nat
  tod : Nat
deriving DecidableEq, Repr

/-- Timestamp comparison (`<=` on `pd.Timestamp`), lexicographic on
(year, month, day, time-of-day). -/
def tsLe (a b : Timestamp) : Bool :=
  if a.year = b.year then
    if a.month = b.month then
      if a.day = b.day then decide (a.tod ≤ b.tod)
      else decide (a.day < b.day)
    else decide (a.month < b.month)
  else decide (a.year < b.year)

/-- Gregorian leap year, as used by `datetime` / pandas. -/
def isLeap (y : Int) : Bool :=
  (y % 4 = 0 && y % 100 ≠ 0) || y % 400 = 0

/-- Number of days in a calendar month. -/
def daysInMonth (y : Int) (m : Nat) : Nat :=
  if m = 2 then (if isLeap y then 29 else 28)
  else if m = 4 ∨ m = 6 ∨ m = 9 ∨ m = 11 then 30
  else 31

/-- The (year, month) pair one calendar month earlier. -/
def prevYM (y : Int) (m : Nat) : Int × Nat :=
  if m = 1 then (y - 1, 12) else (y, m - 1)

/-- `ts - pd.DateOffset(months=k)`: shift the month back by `k`,
clamping the day to the target month's length, keeping the time of day. -/
def dateOffsetSubMonths (ts : Timestamp) (k : Nat) : Timestamp :=
  let total : Int := ts.year * 12 + (ts.month : Int) - 1 - (k : Int)
  let y : Int := Int.ediv total 12
  let m : Nat := (Int.emod total 12).toNat + 1
  ⟨y, m, min ts.day (daysInMonth y m), ts.tod⟩

/-- `ts + pd.offsets.MonthEnd(0)`: roll forward to the last calendar day
of `ts`'s month (stay put when already there), keeping the time of day. -/
def monthEnd0 (ts : Timestamp) : Timestamp :=
  if ts.day = daysInMonth ts.year ts.month then ts
  else { ts with day := daysInMonth ts.year ts.month }

/-- `ts - pd.Timedelta(days=1)` (naive datetimes: exactly one calendar
day back, same time of day). -/
def subOneDay (ts : Timestamp) : Timestamp :=
  if 1 < ts.day then { ts with day := ts.day - 1 }
  else
    let p := prevYM ts.year ts.month
    ⟨p.1, p.2, daysInMonth p.1 p.2, ts.tod⟩

/-- One row of the expense table, raw or normalised:
`(id, amount, category, date)`.  For a *raw* row, `amount`/`date` hold the
result the pandas coercing parser would give (`none` = unparsable → NaN/NaT)
and `category` is `none` when the cell is missing (NaN).  A *normalised*
row uses the same shape, `none` again standing for NaN/NaT/null. -/
structure Row where
  id : Int
  amount : Option ℚ
  category : Option String
  date : Option Timestamp
deriving DecidableEq, Repr

-- -------------------- Python string primitives (ASCII range) --------------------

/-- Python `str.lower()` on one character (ASCII letters; other characters
are returned unchanged, which is all the code's inputs need). -/
def pyLowerChar (c : Char) : Char :=
  if 65 ≤ c.toNat ∧ c.toNat ≤ 90 then Char.ofNat (c.toNat + 32) else c

/-- The character class of the regex `\d` (a decimal digit `0`–`9`). -/
def pyIsDigit (c : Char) : Bool :=
  decide (48 ≤ c.toNat) && decide (c.toNat ≤ 57)

/-- Python `str.lower()`. -/
def pyLower (s : String) : String := ⟨s.data.map pyLowerChar⟩

/-- The whitespace characters Python `str.strip()` removes (ASCII range). -/
def isPySpace (c : Char) : Bool :=
  c = ' ' || c = '\t' || c = '\n' || c = '\x0d' || c = '\x0b' || c = '\x0c'

/-- Core of Python `str.strip()`: drop leading and trailing whitespace. -/
def stripChars (l : List Char) : List Char :=
  ((l.dropWhile isPySpace).reverse.dropWhile isPySpace).reverse

/-- Python `str.strip()`. -/
def pyStrip (s : String) : String := ⟨stripChars s.data⟩

-- -------------------- Record normalisers --------------------

/-- `analysis.rows_to_df`: empty input gives the empty table; otherwise
`amount` is `pd.to_numeric(..., errors="coerce").fillna(0)` (unparsable → 0),
`date` is `pd.to_datetime(..., errors="coerce")` (unparsable → NaT, which the
raw cell already records), and `category` is
`.fillna("").str.lower().str.strip()`. -/
def rows_to_df (rows : List Row) : List Row :=
  if rows.isEmpty then []
  else
    let df := rows
    let df := df.map (fun r => { r with amount := some (r.amount.getD 0) })
    let df := df.map (fun r =>
      { r with category := some (pyStrip (pyLower (r.category.getD ""))) })
    df

/-- `app.df_from_rows`: like `rows_to_df` but `amount` is coerced *without*
`fillna(0)` (unparsable stays NaN) and `category` has no `fillna("")`
(`.str.lower().str.strip()` propagates null through). -/
def df_from_rows (rows : List Row) : List Row :=
  if rows.isEmpty then []
  else
    rows.map (fun r =>
      { r with category := r.category.map (fun c => pyStrip (pyLower c)) })

-- -------------------- Timeframe filter (app.filter_by_timeframe) --------------------

/-- `df["date"] >= start` on one row: `NaT` compares false. -/
def dateGeB (r : Row) (start : Timestamp) : Bool :=
  match r.date with
  | some d => tsLe start d
  | none => false

/-- `df["date"] <= end` on one row: `NaT` compares false. -/
def dateLeB (r : Row) (e : Timestamp) : Bool :=
  match r.date with
  | some d => tsLe d e
  | none => false

/-- `now.replace(day=1)` — keeps the time of day. -/
def thisMonthStart (now : Timestamp) : Timestamp := { now with day := 1 }

/-- `(now - pd.DateOffset(months=1)).replace(day=1)`. -/
def lastMonthStart (now : Timestamp) : Timestamp :=
  { dateOffsetSubMonths now 1 with day := 1 }

/-- `prev.replace(day=1) + pd.offsets.MonthEnd(0)`. -/
def lastMonthEnd (now : Timestamp) : Timestamp :=
  monthEnd0 (lastMonthStart now)

/-- `app.filter_by_timeframe(df, timeframe)` with the wall clock
`pd.Timestamp.now()` passed explicitly. -/
def filter_by_timeframe (df : List Row) (timeframe : String) (now : Timestamp) :
    List Row :=
  if df.isEmpty then df
  else if timeframe = "This Month" then
    df.filter (fun r => dateGeB r (thisMonthStart now))
  else if timeframe = "Last Month" then
    df.filter (fun r => dateGeB r (lastMonthStart now) && dateLeB r (lastMonthEnd now))
  else if timeframe = "Last 3 Months" then
    df.filter (fun r => dateGeB r { dateOffsetSubMonths now 3 with day := 1 })
  else if timeframe = "This Year" then
    df.filter (fun r => dateGeB r { now with month := 1, day := 1 })
  else if timeframe = "All Time" then df
  else df

-- -------------------- Spending analyser (analysis.analyze_spending) --------------------

/-- `os.path.join(AWARENESS_DIR, fname)`; `BASE_DIR` is abstracted away. -/
def AWARENESS_DIR : String := "awareness"

/-- Join a directory and file name (`os.path.join`). -/
def joinPath (d f : String) : String := d ++ "/" ++ f

/-- The literal `mapping` dict of `load_awareness_filename`. -/
def awarenessFname (c : String) : String :=
  if c = "food" then "food.png"
  else if c = "shopping" then "shopping.png"
  else if c = "travel" then "travel.png"
  else if c = "bills" then "bills.png"
  else "default.png"

/-- `analysis.load_awareness_filename`; the `os.path.exists` check is
abstracted as the predicate `fsExists`. -/
def load_awareness_filename (fsExists : String → Bool) (category : String) : String :=
  let path := joinPath AWARENESS_DIR (awarenessFname (pyLower category))
  if fsExists path then path else joinPath AWARENESS_DIR "default.png"

/-- The dictionary shape of `analyze_spending`'s `result`. -/
structure AnalysisResult where
  suggestion : String
  top_category : Option String
  percent_of_total : ℚ
  total : ℚ
  count : Nat
  image_path : String
deriving DecidableEq, Repr

/-- `df["amount"].sum()` (NaN amounts are skipped by pandas `sum`). -/
def sumAmounts (df : List Row) : ℚ :=
  df.foldl (fun acc r => acc + r.amount.getD 0) 0

/-- Lexicographic order on character lists (string `<` as pandas sorts
category keys). -/
def charListLt : List Char → List Char → Bool
  | [], [] => false
  | [], _ :: _ => true
  | _ :: _, [] => false
  | a :: as, b :: bs => if a = b then charListLt as bs else decide (a < b)

/-- Insert a key into an ascending sorted list of distinct keys
(the group keys of `df.groupby("category")`, which pandas sorts). -/
def insertKey (c : String) : List String → List String
  | [] => [c]
  | k :: rest =>
    if c = k then k :: rest
    else if charListLt c.data k.data then c :: k :: rest
    else k :: insertKey c rest

/-- `df.groupby("category")["amount"].sum()`: rows whose category is NaN are
dropped by groupby; keys are in ascending order, each with its amount sum. -/
def catTotals (df : List Row) : List (String × ℚ) :=
  let pairs := df.filterMap (fun r => r.category.map (fun c => (c, r.amount.getD 0)))
  let keys := pairs.foldl (fun acc p => insertKey p.1 acc) []
  keys.map (fun k =>
    (k, pairs.foldl (fun acc p => if p.1 = k then acc + p.2 else acc) 0))

/-- `cat_totals.sort_values(ascending=False)`'s first entry: the
(category, sum) with the maximal sum.  pandas' descending quicksort leaves
the order of tied sums implementation-defined; here a tie keeps the
lexicographically-smaller key, one deterministic realisation. -/
def topPair (ct : List (String × ℚ)) : Option (String × ℚ) :=
  match ct with
  | [] => none
  | p :: rest => some (rest.foldl (fun b q => if decide (b.2 < q.2) then q else b) p)

/-- Round `q` to the nearest integer, ties to even (the rounding of
Python's `format(x, ".1f")`). -/
def roundHalfEven (q : ℚ) : Int :=
  let f := ⌊q⌋
  let r := q - (f : ℚ)
  if r < 1/2 then f
  else if (1:ℚ)/2 < r then f + 1
  else if f % 2 = 0 then f else f + 1

/-- Python `f"{x:.1f}"` for the non-negative percentages the code formats. -/
def fmtFixed1 (q : ℚ) : String :=
  let n := roundHalfEven (q * 10)
  toString (n / 10) ++ "." ++ toString (n % 10)

/-- Python `str.title()` (ASCII): a letter following a non-letter is
upper-cased, a letter following a letter is lower-cased. -/
def pyTitleAux : List Char → Bool → List Char
  | [], _ => []
  | c :: rest, prevAlpha =>
    (if c.isAlpha then (if prevAlpha then pyLowerChar c else c.toUpper) else c)
      :: pyTitleAux rest c.isAlpha

/-- Python `str.title()`. -/
def pyTitle (s : String) : String := ⟨pyTitleAux s.data false⟩

/-- The alarm severity line:
`f"🚨 You spent {percent:.1f}% on **{top_cat.title()}**."`. -/
def alarmLine (top_cat : String) (percent : ℚ) : String :=
  "🚨 You spent " ++ fmtFixed1 percent ++ "% on **" ++ pyTitle top_cat ++ "**."

/-- The warning severity line:
`f"⚠️ {top_cat.title()} makes up {percent:.1f}% of your spending."`. -/
def warnLine (top_cat : String) (percent : ℚ) : String :=
  "⚠️ " ++ pyTitle top_cat ++ " makes up " ++ fmtFixed1 percent ++ "% of your spending."

/-- The balanced severity line (a constant: names neither category nor percent). -/
def balancedLine : String := "✅ Your spending is well balanced."

/-- The `tips` dict lookup `tips.get(top_cat, "Track recurring expenses.")`. -/
def tipFor (c : String) : String :=
  if c = "food" then "Try reducing takeout and cook at home more often."
  else if c = "shopping" then "Use a wishlist and buy only after 48 hours."
  else if c = "travel" then "Look for discount deals or plan trips off-season."
  else if c = "bills" then "Review subscriptions and remove unused services."
  else "Track recurring expenses."

/-- `analysis.analyze_spending(rows, timeframe)`.  `fsExists` abstracts the
`os.path.exists` check inside `load_awareness_filename`.  The `timeframe`
parameter is never read by the Python body, and likewise never here.
When `total > 0` and the table is non-empty, `cat_totals` is non-empty
(normalised categories are never NaN), so the `none` branch of `topPair`
is unreachable (in Python an empty index would raise). -/
def analyze_spending (fsExists : String → Bool) (rows : List Row)
    (timeframe : String) : AnalysisResult :=
  let df := rows_to_df rows
  let base : AnalysisResult :=
    ⟨"No expenses yet.", none, 0, 0, 0, joinPath AWARENESS_DIR "default.png"⟩
  if df.isEmpty then base
  else
    let total := sumAmounts df
    let cnt := df.length
    if total ≤ 0 then
      { base with suggestion := "No expenses added in this timeframe.",
                  total := total, count := cnt }
    else
      match topPair (catTotals df) with
      | none => { base with total := total, count := cnt }
      | some (top_cat, top_amt) =>
        let percent := top_amt / total * 100
        let sevLine :=
          if 40 ≤ percent then alarmLine top_cat percent
          else if 25 ≤ percent then warnLine top_cat percent
          else balancedLine
        { suggestion := sevLine ++ "\n" ++ ("💡 Tip: " ++ tipFor top_cat),
          top_category := some top_cat,
          percent_of_total := percent,
          total := total,
          count := cnt,
          image_path := load_awareness_filename fsExists top_cat }

-- -------------------- Natural-language parser (analysis.parse_nl_expense) --------------------

/-- Value of a run of decimal digit characters. -/
def digitsToNat (ds : List Char) : Nat :=
  ds.foldl (fun acc c => acc * 10 + (c.toNat - 48)) 0

/-- The numeric value of a regex match of `\d+(?:\.\d+)?` starting at the
head of `l` (the head is a digit): greedy integer digits, then an optional
fractional part requiring at least one digit after the point.  This is the
`float(...)` of the matched text. -/
def readNumber (l : List Char) : ℚ :=
  let ds := l.takeWhile pyIsDigit
  let rest := l.dropWhile pyIsDigit
  let intPart : ℚ := (digitsToNat ds : ℚ)
  match rest with
  | '.' :: r2 =>
    let fs := r2.takeWhile pyIsDigit
    if fs.isEmpty then intPart
    else intPart + (digitsToNat fs : ℚ) / ((10 : ℚ) ^ fs.length)
  | _ => intPart

/-- `re.search(r"(\d+(?:\.\d+)?)", text)`: the value of the first
(leftmost) match, or `none` when the text has no digit. -/
def firstNumberMatch : List Char → Option ℚ
  | [] => none
  | c :: rest => if pyIsDigit c then some (readNumber (c :: rest)) else firstNumberMatch rest

/-- The fixed `categories` vocabulary, in scan order. -/
def vocab : List String := ["food", "shopping", "travel", "bills"]

/-- Python's `sub in text` substring test. -/
def liInfix (w t : List Char) : Bool := decide (w <:+: t)

/-- The category-detection loop: the first vocabulary word that occurs as a
substring of `t` (`if c in text`). -/
def firstCat (t : List Char) : Option String :=
  vocab.find? (fun w => liInfix w.data t)

/-- A match of `\d{4}-\d{2}-\d{2}` at the head of `l`: the three digit
groups, as numbers. -/
def isoAt (l : List Char) : Option (Nat × Nat × Nat) :=
  match l with
  | a :: b :: c :: d :: s1 :: e :: f :: s2 :: g :: h :: _ =>
    if pyIsDigit a && pyIsDigit b && pyIsDigit c && pyIsDigit d && s1 = '-' &&
       pyIsDigit e && pyIsDigit f && s2 = '-' && pyIsDigit g && pyIsDigit h then
      some (digitsToNat [a, b, c, d], digitsToNat [e, f], digitsToNat [g, h])
    else none
  | _ => none

/-- `re.search(r"(\d{4}-\d{2}-\d{2})", text)`: leftmost match. -/
def firstIsoMatch : List Char → Option (Nat × Nat × Nat)
  | [] => none
  | c :: rest =>
    match isoAt (c :: rest) with
    | some r => some r
    | none => firstIsoMatch rest

/-- `datetime.fromisoformat("YYYY-MM-DD")`: accepts years 1–9999, months
1–12 and days valid for the month, at midnight; raising is modelled as
`none`. -/
def fromIso (y m d : Nat) : Option Timestamp :=
  if 1 ≤ y ∧ y ≤ 9999 ∧ 1 ≤ m ∧ m ≤ 12 ∧ 1 ≤ d ∧ d ≤ daysInMonth (y : Int) m then
    some ⟨(y : Int), m, d, 0⟩
  else none

/-- The date-detection block of `parse_nl_expense`, applied to the
lower-cased stripped text `t`; `now` is `datetime.now()`. -/
def dateDetect (now : Timestamp) (t : List Char) : Timestamp :=
  if liInfix "today".data t then now
  else if liInfix "yesterday".data t then subOneDay now
  else
    match firstIsoMatch t with
    | some (y, m, d) =>
      match fromIso y m d with
      | some ts => ts
      | none => now
    | none => now

/-- `analysis.parse_nl_expense(text)` with the wall clock `datetime.now()`
passed explicitly.  Returns `none` exactly where the Python returns `None`. -/
def parse_nl_expense (now : Timestamp) (text : String) : Option (ℚ × String × Timestamp) :=
  if pyStrip text = "" then none
  else
    let t := pyStrip (pyLower text)
    match firstNumberMatch t.data with
    | none => none
    | some amount =>
      match firstCat t.data with
      | none => none
      | some cat => some (amount, cat, dateDetect now t.data)

-- -------------------- Spec-side window predicates and fixtures --------------------

/-- The window the spec's words assign to "This Month": "first day of
current month (inclusive) through now" — from the start of the first
calendar day of `now`'s month up to `now`. -/
def specThisMonthWindow (now d : Timestamp) : Bool :=
  tsLe ⟨now.year, now.month, 1, 0⟩ d && tsLe d now

/-- The window the spec's words assign to "Last Month": "first through
last calendar day of the previous month, inclusive both ends" — the date
falls on a calendar day of the month before `now`'s. -/
def specLastMonthWindow (now d : Timestamp) : Bool :=
  decide (d.year = (prevYM now.year now.month).1) &&
    decide (d.month = (prevYM now.year now.month).2)

/-- The fused per-row transform of `rows_to_df`. -/
def normRow (t : Row) : Row :=
  ⟨t.id, some (t.amount.getD 0), some (pyStrip (pyLower (t.category.getD ""))), t.date⟩

/-- The fused per-row transform of `df_from_rows`. -/
def appRow (t : Row) : Row :=
  ⟨t.id, t.amount, t.category.map (fun c => pyStrip (pyLower c)), t.date⟩

/-- A fixed wall-clock instant used in concrete counterexamples and
witnesses: 2024-05-15, some time strictly after midnight. -/
def now0 : Timestamp := ⟨2024, 5, 15, 100⟩

/-- A file-existence oracle under which every asset is present. -/
def fs0 : String → Bool := fun _ => true

/-- Two rows with category sums food ↦ 60, shopping ↦ 40 (total 100). -/
def rows2 : List Row :=
  [⟨1, some 60, some "food", none⟩, ⟨2, some 40, some "shopping", none⟩]

/-- A raw row whose amount is unparsable and whose category is missing. -/
def nullRow : Row := ⟨1, none, none, none⟩

/-- A row dated the first day of `now0`'s month, at midnight. -/
def rEarly : Row := ⟨1, some 5, some "food", some ⟨2024, 5, 1, 0⟩⟩

/-- A row dated after `now0` (a future date in the next month). -/
def rFuture : Row := ⟨2, some 5, some "food", some ⟨2024, 6, 20, 0⟩⟩

/-- A row dated the last calendar day of the month before `now0`'s,
later in the day than `now0`'s time of day. -/
def rLateApr : Row := ⟨3, some 5, some "food", some ⟨2024, 4, 30, 500⟩⟩

unseal Rat.add Rat.mul Rat.inv Rat.sub

-- -------------------- Helper lemmas --------------------

/-- `rows_to_df` is the row-wise map `normRow`. -/
theorem rows_to_df_eq_map (rows : List Row) : rows_to_df rows = rows.map normRow := by
  cases rows with
  | nil => rfl
  | cons r rest =>
    simp only [rows_to_df, List.isEmpty_cons, List.map_map]
    rfl

/-- `df_from_rows` is the row-wise map `appRow`. -/
theorem df_from_rows_eq_map (rows : List Row) : df_from_rows rows = rows.map appRow := by
  cases rows with
  | nil => rfl
  | cons r rest =>
    simp only [df_from_rows, List.isEmpty_cons]
    rfl

/-- A row passing a `date >=` comparison has a non-null date. -/
theorem dateGeB_isSome (r : Row) (s : Timestamp) (h : dateGeB r s = true) :
    r.date.isSome = true := by
  unfold dateGeB at h
  cases hd : r.date with
  | none => rw [hd] at h; exact absurd h (by simp)
  | some d => simp [hd]

-- -------------------- C9 --------------------

/-- C9: for every file-existence oracle, row set and any two timeframe
strings, `analyze_spending` returns the same result: the `timeframe`
argument is never read by the analyser. -/
theorem analyze_spending_ignores_timeframe (fs : String → Bool) (rows : List Row)
    (t1 t2 : String) : analyze_spending fs rows t1 = analyze_spending fs rows t2 := rfl

-- -------------------- C2 --------------------

/-- C2 counterexample: on the table with category sums
food ↦ 60, shopping ↦ 40 (total 100), `analyze_spending` returns
`percent_of_total = 60`, not `40` as the claim states (the percent reported
is the top category's own share, 60/100). -/
theorem analyze_sixty_forty_percent_is_sixty :
    (analyze_spending fs0 rows2 "This Month").top_category = some "food" ∧
    (analyze_spending fs0 rows2 "This Month").percent_of_total = 60 ∧
    ¬ (analyze_spending fs0 rows2 "This Month").percent_of_total = 40 := by decide

/-- C2 amended: on the table with category sums food ↦ 60, shopping ↦ 40
(total 100), `analyze` returns `top_category = "food"`,
`percent_of_total = 60.0`, and the alarm-level suggestion line (since
`60 >= 40`), naming the category and the percent. -/
theorem analyze_sixty_forty_result :
    analyze_spending fs0 rows2 "This Month" =
      ⟨"🚨 You spent 60.0% on **Food**.\n💡 Tip: Try reducing takeout and cook at home more often.",
       some "food", 60, 100, 2, "awareness/food.png"⟩ := by decide

-- -------------------- C4 --------------------

/-- C4 counterexample: the app-side Record Normalizer `df_from_rows`, on a
row whose amount is unparsable and whose category is missing, keeps the
NaN amount (it does not become `0`) and keeps the category null (it does
not become the empty string). -/
theorem df_from_rows_keeps_nulls :
    df_from_rows [nullRow] = [nullRow] ∧
    ¬ (nullRow.amount = some 0) ∧ nullRow.category = none := by decide

/-- C4 amended: the analysis-side normaliser `rows_to_df` gives every row a
numeric amount (unparsable → 0) and a lower-cased trimmed category
(missing → the empty string, never null); the app-side normaliser
`df_from_rows` instead passes amounts through unchanged (unparsable stays
NaN) and propagates a missing category as null. -/
theorem normalisers_characterised (raws : List Row) :
    (∀ r ∈ rows_to_df raws, ∃ t ∈ raws,
        r.amount = some (t.amount.getD 0) ∧
        r.category = some (pyStrip (pyLower (t.category.getD ""))) ∧ r.date = t.date) ∧
    (∀ r ∈ df_from_rows raws, ∃ t ∈ raws,
        r.amount = t.amount ∧
        r.category = t.category.map (fun c => pyStrip (pyLower c)) ∧ r.date = t.date) := by
  constructor
  · intro r hr
    rw [rows_to_df_eq_map] at hr
    obtain ⟨t, ht, rfl⟩ := List.mem_map.mp hr
    exact ⟨t, ht, rfl, rfl, rfl⟩
  · intro r hr
    rw [df_from_rows_eq_map] at hr
    obtain ⟨t, ht, rfl⟩ := List.mem_map.mp hr
    exact ⟨t, ht, rfl, rfl, rfl⟩

/-- C4 amended, witness: instantiating the characterisation on the
all-null raw row. -/
theorem normalisers_characterised_witness :
    ∃ t ∈ [nullRow], (⟨1, some 0, some "", none⟩ : Row).amount = some (t.amount.getD 0) ∧
      (⟨1, some 0, some "", none⟩ : Row).category =
        some (pyStrip (pyLower (t.category.getD ""))) ∧
      (⟨1, some 0, some "", none⟩ : Row).date = t.date :=
  (normalisers_characterised [nullRow]).1 ⟨1, some 0, some "", none⟩ (by decide)

-- -------------------- C1 --------------------

/-- C1 counterexample, at `now0` = 2024-05-15 with time of day 100:
* the spec window for "This Month" contains 2024-05-01 00:00 (the first
  day of the current month), yet the filter drops that row, because the
  code's lower bound `now.replace(day=1)` keeps `now`'s time of day;
* the spec window excludes the future date 2024-06-20, yet the filter
  keeps that row, because the code has no upper bound at all;
* the spec window for "Last Month" contains 2024-04-30 (time 500), the
  last calendar day of the previous month, yet the filter drops it,
  because the code's upper bound sits at `now`'s time of day (100). -/
theorem filter_windows_differ_from_spec :
    filter_by_timeframe [rEarly, rFuture, rLateApr] "This Month" now0 = [rFuture] ∧
    specThisMonthWindow now0 ⟨2024, 5, 1, 0⟩ = true ∧
    specThisMonthWindow now0 ⟨2024, 6, 20, 0⟩ = false ∧
    filter_by_timeframe [rEarly, rFuture, rLateApr] "Last Month" now0 = [] ∧
    specLastMonthWindow now0 ⟨2024, 4, 30, 500⟩ = true := by decide

/-- C1 amended: for every table, "This Month" keeps precisely the rows
whose (non-null) date is at or after the first day of the current month
*at now's time of day*, with no upper bound (future-dated rows are kept);
"Last Month" keeps precisely the rows whose (non-null) date lies between
the first and the last calendar day of the previous month, both bounds
taken *at now's time of day* and inclusive. -/
theorem filter_this_last_month_mem (df : List Row) (now : Timestamp) (r : Row) :
    (r ∈ filter_by_timeframe df "This Month" now ↔
      r ∈ df ∧ ∃ d, r.date = some d ∧ tsLe (thisMonthStart now) d = true) ∧
    (r ∈ filter_by_timeframe df "Last Month" now ↔
      r ∈ df ∧ ∃ d, r.date = some d ∧ tsLe (lastMonthStart now) d = true ∧
        tsLe d (lastMonthEnd now) = true) := by
  cases df with
  | nil => simp [filter_by_timeframe]
  | cons x xs =>
    constructor
    · rw [show filter_by_timeframe (x :: xs) "This Month" now =
          (x :: xs).filter (fun r => dateGeB r (thisMonthStart now)) from rfl,
        List.mem_filter]
      unfold dateGeB
      cases hd : r.date with
      | none => simp [hd]
      | some d => simp [hd]
    · rw [show filter_by_timeframe (x :: xs) "Last Month" now =
          (x :: xs).filter
            (fun r => dateGeB r (lastMonthStart now) && dateLeB r (lastMonthEnd now)) from rfl,
        List.mem_filter]
      unfold dateGeB dateLeB
      cases hd : r.date with
      | none => simp [hd]
      | some d => simp [hd, Bool.and_eq_true]

-- -------------------- C8 --------------------

/-- C8: for every table, rows whose date is the invalid/null marker (NaT)
never survive any of the four bounded timeframes, while "All Time" returns
the table unchanged, such rows included. -/
theorem filter_drops_nat_and_alltime_id (df : List Row) (now : Timestamp) :
    (∀ tf ∈ ["This Month", "Last Month", "Last 3 Months", "This Year"],
      ∀ r ∈ filter_by_timeframe df tf now, r.date.isSome = true) ∧
    filter_by_timeframe df "All Time" now = df := by
  constructor
  · intro tf htf r hr
    cases df with
    | nil =>
      rw [show filter_by_timeframe [] tf now = [] from by unfold filter_by_timeframe; rfl] at hr
      exact absurd hr (by simp)
    | cons x xs =>
      fin_cases htf
      · rw [show filter_by_timeframe (x :: xs) "This Month" now =
            (x :: xs).filter (fun r => dateGeB r (thisMonthStart now)) from rfl] at hr
        exact dateGeB_isSome r _ (List.mem_filter.mp hr).2
      · rw [show filter_by_timeframe (x :: xs) "Last Month" now =
            (x :: xs).filter
              (fun r => dateGeB r (lastMonthStart now) && dateLeB r (lastMonthEnd now))
            from rfl] at hr
        exact dateGeB_isSome r _ (Bool.and_eq_true_iff.mp (List.mem_filter.mp hr).2).1
      · rw [show filter_by_timeframe (x :: xs) "Last 3 Months" now =
            (x :: xs).filter
              (fun r => dateGeB r { dateOffsetSubMonths now 3 with day := 1 }) from rfl] at hr
        exact dateGeB_isSome r _ (List.mem_filter.mp hr).2
      · rw [show filter_by_timeframe (x :: xs) "This Year" now =
            (x :: xs).filter (fun r => dateGeB r { now with month := 1, day := 1 })
            from rfl] at hr
        exact dateGeB_isSome r _ (List.mem_filter.mp hr).2
  · cases df with
    | nil => rfl
    | cons x xs => rfl

/-- C8 witness: at `now0`, on a table holding one NaT-dated row and one
row dated inside the current month, the filtered "This Month" table's
member has a non-null date, and "All Time" returns the table unchanged. -/
theorem filter_drops_nat_witness :
    (⟨9, some 3, some "food", some ⟨2024, 5, 20, 0⟩⟩ : Row).date.isSome = true ∧
    filter_by_timeframe [nullRow, ⟨9, some 3, some "food", some ⟨2024, 5, 20, 0⟩⟩]
      "All Time" now0 = [nullRow, ⟨9, some 3, some "food", some ⟨2024, 5, 20, 0⟩⟩] :=
  ⟨(filter_drops_nat_and_alltime_id
      [nullRow, ⟨9, some 3, some "food", some ⟨2024, 5, 20, 0⟩⟩] now0).1
      "This Month" (by decide) ⟨9, some 3, some "food", some ⟨2024, 5, 20, 0⟩⟩ (by decide),
   (filter_drops_nat_and_alltime_id
      [nullRow, ⟨9, some 3, some "food", some ⟨2024, 5, 20, 0⟩⟩] now0).2⟩

-- -------------------- Analyzer helper lemmas --------------------

/-- Normalisation preserves the row count. -/
theorem length_rows_to_df (rows : List Row) :
    (rows_to_df rows).length = rows.length := by
  rw [rows_to_df_eq_map, List.length_map]

/-- Every normalised row has a non-null category. -/
theorem rows_to_df_category_isSome (rows : List Row) (r : Row)
    (h : r ∈ rows_to_df rows) : r.category.isSome = true := by
  rw [rows_to_df_eq_map] at h
  obtain ⟨t, _, rfl⟩ := List.mem_map.mp h
  rfl

/-- Inserting a key never empties the key list. -/
theorem insertKey_ne_nil (c : String) (ks : List String) : insertKey c ks ≠ [] := by
  cases ks with
  | nil => simp [insertKey]
  | cons k rest =>
    unfold insertKey
    split
    · simp
    · split <;> simp

/-- Folding key insertions over any pair list keeps the key list non-empty. -/
theorem foldl_insertKey_ne_nil (ps : List (String × ℚ)) (acc : List String)
    (h : acc ≠ []) : ps.foldl (fun a p => insertKey p.1 a) acc ≠ [] := by
  induction ps generalizing acc with
  | nil => exact h
  | cons p rest ih => exact ih _ (insertKey_ne_nil _ _)

/-- A non-empty table whose rows all carry a category yields non-empty
per-category totals (pandas' groupby would raise otherwise). -/
theorem catTotals_ne_nil (df : List Row) (hne : df ≠ [])
    (hcat : ∀ r ∈ df, r.category.isSome = true) : catTotals df ≠ [] := by
  cases df with
  | nil => exact absurd rfl hne
  | cons r rest =>
    obtain ⟨c, hc⟩ := Option.isSome_iff_exists.mp (hcat r (List.mem_cons_self r rest))
    unfold catTotals
    intro hmap
    have hkeys := List.map_eq_nil_iff.mp hmap
    have hpairs :
        List.filterMap (fun r => r.category.map fun c => (c, r.amount.getD 0)) (r :: rest)
          = (c, r.amount.getD 0) ::
            List.filterMap (fun r => r.category.map fun c => (c, r.amount.getD 0)) rest := by
      rw [List.filterMap_cons]
      rw [show (r.category.map fun c => (c, r.amount.getD 0)) = some (c, r.amount.getD 0)
        from by rw [hc]; rfl]
    rw [hpairs, List.foldl_cons] at hkeys
    exact foldl_insertKey_ne_nil _ _ (insertKey_ne_nil _ _) hkeys

/-- A non-empty totals list has a top pair. -/
theorem topPair_isSome (ct : List (String × ℚ)) (h : ct ≠ []) :
    ∃ p, topPair ct = some p := by
  cases ct with
  | nil => exact absurd rfl h
  | cons p rest => exact ⟨_, rfl⟩

/-- Branch lemma: empty table. -/
theorem analyze_eq_of_empty (fs : String → Bool) (rows : List Row) (tf : String)
    (h1 : (rows_to_df rows).isEmpty = true) :
    analyze_spending fs rows tf =
      ⟨"No expenses yet.", none, 0, 0, 0, joinPath AWARENESS_DIR "default.png"⟩ := by
  simp only [analyze_spending]
  rw [if_pos h1]

/-- Branch lemma: non-empty table with non-positive total. -/
theorem analyze_eq_of_nonpos (fs : String → Bool) (rows : List Row) (tf : String)
    (h1 : ¬ (rows_to_df rows).isEmpty = true)
    (h2 : sumAmounts (rows_to_df rows) ≤ 0) :
    analyze_spending fs rows tf =
      ⟨"No expenses added in this timeframe.", none, 0, sumAmounts (rows_to_df rows),
       (rows_to_df rows).length, joinPath AWARENESS_DIR "default.png"⟩ := by
  simp only [analyze_spending]
  rw [if_neg h1, if_pos h2]

/-- Branch lemma: positive total with known top pair. -/
theorem analyze_eq_of_pos (fs : String → Bool) (rows : List Row) (tf : String)
    (tc : String) (ta : ℚ)
    (h1 : ¬ (rows_to_df rows).isEmpty = true)
    (h2 : ¬ sumAmounts (rows_to_df rows) ≤ 0)
    (hp : topPair (catTotals (rows_to_df rows)) = some (tc, ta)) :
    analyze_spending fs rows tf =
      ⟨(if 40 ≤ ta / sumAmounts (rows_to_df rows) * 100 then
          alarmLine tc (ta / sumAmounts (rows_to_df rows) * 100)
        else if 25 ≤ ta / sumAmounts (rows_to_df rows) * 100 then
          warnLine tc (ta / sumAmounts (rows_to_df rows) * 100)
        else balancedLine) ++ "\n" ++ ("💡 Tip: " ++ tipFor tc),
       some tc, ta / sumAmounts (rows_to_df rows) * 100, sumAmounts (rows_to_df rows),
       (rows_to_df rows).length, load_awareness_filename fs tc⟩ := by
  simp only [analyze_spending]
  rw [if_neg h1, if_neg h2, hp]

-- -------------------- C3 --------------------

/-- C3: for every table handed to the analyser, if the result's row count
is 0 or its total is ≤ 0 then `top_category` is null and
`percent_of_total` is 0; and on a non-empty table with total ≤ 0 the
suggestion is "No expenses added in this timeframe." while `count` still
equals the actual row count. -/
theorem analyze_nonpos_total_invariant (fs : String → Bool) (rows : List Row)
    (tf : String) :
    (((analyze_spending fs rows tf).count = 0 ∨ (analyze_spending fs rows tf).total ≤ 0) →
      (analyze_spending fs rows tf).top_category = none ∧
      (analyze_spending fs rows tf).percent_of_total = 0) ∧
    (rows ≠ [] → (analyze_spending fs rows tf).total ≤ 0 →
      (analyze_spending fs rows tf).suggestion = "No expenses added in this timeframe." ∧
      (analyze_spending fs rows tf).count = rows.length) := by
  by_cases h1 : (rows_to_df rows).isEmpty = true
  · rw [analyze_eq_of_empty fs rows tf h1]
    refine ⟨fun _ => ⟨rfl, rfl⟩, fun hrow _ => absurd ?_ hrow⟩
    have : rows_to_df rows = [] := List.isEmpty_iff.mp h1
    rw [rows_to_df_eq_map] at this
    exact List.map_eq_nil_iff.mp this
  · by_cases h2 : sumAmounts (rows_to_df rows) ≤ 0
    · rw [analyze_eq_of_nonpos fs rows tf h1 h2]
      exact ⟨fun _ => ⟨rfl, rfl⟩, fun _ _ => ⟨rfl, length_rows_to_df rows⟩⟩
    · have hdf : rows_to_df rows ≠ [] := by
        intro hn
        exact h1 (by rw [hn]; rfl)
      obtain ⟨⟨tc, ta⟩, hp⟩ :=
        topPair_isSome _ (catTotals_ne_nil _ hdf (rows_to_df_category_isSome rows))
      rw [analyze_eq_of_pos fs rows tf tc ta h1 h2 hp]
      constructor
      · rintro (hc | ht)
        · exact absurd (List.length_eq_zero.mp hc) hdf
        · exact absurd ht h2
      · intro _ ht
        exact absurd ht h2

/-- C3 witness: a one-row table with amount −5 (count 1 ≠ 0, total ≤ 0). -/
theorem analyze_nonpos_total_invariant_witness :
    ((analyze_spending fs0 [⟨1, some (-5), some "food", none⟩] "This Month").top_category
        = none ∧
     (analyze_spending fs0 [⟨1, some (-5), some "food", none⟩] "This Month").percent_of_total
        = 0) ∧
    ((analyze_spending fs0 [⟨1, some (-5), some "food", none⟩] "This Month").suggestion
        = "No expenses added in this timeframe." ∧
     (analyze_spending fs0 [⟨1, some (-5), some "food", none⟩] "This Month").count = 1) :=
  ⟨(analyze_nonpos_total_invariant fs0 [⟨1, some (-5), some "food", none⟩] "This Month").1
      (Or.inr (by decide)),
   (analyze_nonpos_total_invariant fs0 [⟨1, some (-5), some "food", none⟩] "This Month").2
      (by decide) (by decide)⟩

-- -------------------- C5 --------------------

/-- C5: on every table with positive total, the suggestion is the severity
line followed by the tip line, and the severity line is selected purely by
thresholds on `percent_of_total`: ≥ 40 the alarm line (naming the top
category and the percent), ≥ 25 the warning line, otherwise the constant
balanced line `balancedLine`, which names neither category nor percent. -/
theorem analyze_severity_thresholds (fs : String → Bool) (rows : List Row)
    (tf : String) (h : 0 < (analyze_spending fs rows tf).total) :
    ∃ top, (analyze_spending fs rows tf).top_category = some top ∧
      (analyze_spending fs rows tf).suggestion =
        (if 40 ≤ (analyze_spending fs rows tf).percent_of_total then
            alarmLine top ((analyze_spending fs rows tf).percent_of_total)
          else if 25 ≤ (analyze_spending fs rows tf).percent_of_total then
            warnLine top ((analyze_spending fs rows tf).percent_of_total)
          else balancedLine) ++ "\n" ++ ("💡 Tip: " ++ tipFor top) := by
  by_cases h1 : (rows_to_df rows).isEmpty = true
  · rw [analyze_eq_of_empty fs rows tf h1] at h
    exact absurd h (by norm_num)
  · by_cases h2 : sumAmounts (rows_to_df rows) ≤ 0
    · rw [analyze_eq_of_nonpos fs rows tf h1 h2] at h
      exact absurd h (not_lt.mpr h2)
    · have hdf : rows_to_df rows ≠ [] := by
        intro hn
        exact h1 (by rw [hn]; rfl)
      obtain ⟨⟨tc, ta⟩, hp⟩ :=
        topPair_isSome _ (catTotals_ne_nil _ hdf (rows_to_df_category_isSome rows))
      rw [analyze_eq_of_pos fs rows tf tc ta h1 h2 hp]
      exact ⟨tc, rfl, rfl⟩

/-- C5 witness: the 60/40 table has total 100 > 0; its percent is 60, so
the alarm line is selected. -/
theorem analyze_severity_thresholds_witness :
    ∃ top, (analyze_spending fs0 rows2 "This Month").top_category = some top ∧
      (analyze_spending fs0 rows2 "This Month").suggestion =
        (if 40 ≤ (analyze_spending fs0 rows2 "This Month").percent_of_total then
            alarmLine top ((analyze_spending fs0 rows2 "This Month").percent_of_total)
          else if 25 ≤ (analyze_spending fs0 rows2 "This Month").percent_of_total then
            warnLine top ((analyze_spending fs0 rows2 "This Month").percent_of_total)
          else balancedLine) ++ "\n" ++ ("💡 Tip: " ++ tipFor top) :=
  analyze_severity_thresholds fs0 rows2 "This Month" (by decide)

-- -------------------- Parser helper lemmas --------------------

/-- The value of a number match is non-negative. -/
theorem readNumber_nonneg (l : List Char) : 0 ≤ readNumber l := by
  simp only [readNumber]
  split
  · split
    · exact Nat.cast_nonneg _
    · exact add_nonneg (Nat.cast_nonneg _)
        (div_nonneg (Nat.cast_nonneg _) (pow_nonneg (by norm_num) _))
  · exact Nat.cast_nonneg _

/-- Any amount the number scanner returns is non-negative. -/
theorem firstNumberMatch_nonneg (l : List Char) (q : ℚ)
    (h : firstNumberMatch l = some q) : 0 ≤ q := by
  induction l with
  | nil => exact absurd h (by simp [firstNumberMatch])
  | cons c rest ih =>
    unfold firstNumberMatch at h
    split at h
    · cases h
      exact readNumber_nonneg _
    · exact ih h

-- -------------------- C10 --------------------

/-- C10: whenever the parser succeeds, the returned amount is non-negative
— the number pattern matches only unsigned digit runs, so a minus sign in
the text is ignored. -/
theorem parse_nl_amount_nonneg (now : Timestamp) (s : String) (a : ℚ) (c : String)
    (d : Timestamp) (h : parse_nl_expense now s = some (a, c, d)) : 0 ≤ a := by
  simp only [parse_nl_expense] at h
  split at h
  · exact absurd h (by simp)
  · cases hn : firstNumberMatch (pyStrip (pyLower s)).data with
    | none => rw [hn] at h; exact absurd h (by simp)
    | some q =>
      rw [hn] at h
      cases hc : firstCat (pyStrip (pyLower s)).data with
      | none => rw [hc] at h; exact absurd h (by simp)
      | some cat =>
        rw [hc] at h
        simp only [Option.some.injEq, Prod.mk.injEq] at h
        obtain ⟨ha, -, -⟩ := h
        rw [← ha]
        exact firstNumberMatch_nonneg _ _ hn

/-- C10 witness: an input containing "-50" parses with amount `50`
(and `0 ≤ 50`). -/
theorem parse_nl_amount_nonneg_witness :
    parse_nl_expense now0 "-50 food today" = some (50, "food", now0) ∧ (0 : ℚ) ≤ 50 :=
  ⟨by decide, parse_nl_amount_nonneg now0 "-50 food today" 50 "food" now0 (by decide)⟩

-- -------------------- C7 --------------------

/-- C7: whenever the parser succeeds, the returned date follows the
priority order of `dateDetect` on the lower-cased stripped text: the
substring "today" gives `now`; else "yesterday" gives `now` minus one
day; else a `YYYY-MM-DD` match is parsed as that calendar date, falling
back to `now` when it is malformed despite matching the pattern
(`fromIso` returns `none`); else `now`. -/
theorem parse_nl_date_priority (now : Timestamp) (s : String) (a : ℚ) (c : String)
    (d : Timestamp) (h : parse_nl_expense now s = some (a, c, d)) :
    d = dateDetect now (pyStrip (pyLower s)).data := by
  simp only [parse_nl_expense] at h
  split at h
  · exact absurd h (by simp)
  · cases hn : firstNumberMatch (pyStrip (pyLower s)).data with
    | none => rw [hn] at h; exact absurd h (by simp)
    | some q =>
      rw [hn] at h
      cases hc : firstCat (pyStrip (pyLower s)).data with
      | none => rw [hc] at h; exact absurd h (by simp)
      | some cat =>
        rw [hc] at h
        simp only [Option.some.injEq, Prod.mk.injEq] at h
        obtain ⟨-, -, hd⟩ := h
        exact hd.symm

/-- C7 witness: "100 on 2024-01-15 bills" parses and its date is the one
`dateDetect` assigns (the embedded ISO date, at midnight). -/
theorem parse_nl_date_priority_witness :
    (⟨2024, 1, 15, 0⟩ : Timestamp) =
      dateDetect now0 (pyStrip (pyLower "100 on 2024-01-15 bills")).data :=
  parse_nl_date_priority now0 "100 on 2024-01-15 bills" 100 "bills" ⟨2024, 1, 15, 0⟩
    (by decide)

/-- `Char.ofNat` on a small scalar value keeps its code point. -/
theorem toNat_charOfNat_of_lt (n : Nat) (h : n < 55296) :
    (Char.ofNat n).toNat = n := by
  unfold Char.ofNat
  rw [dif_pos (Or.inl h)]
  rfl

/-- A digit is not whitespace (all stripped characters sit below `0`). -/
theorem isPySpace_false_of_ge48 (c : Char) (h : 48 ≤ c.toNat) :
    isPySpace c = false := by
  have key : ∀ sp : Char, sp.toNat < 48 → decide (c = sp) = false := by
    intro sp hsp
    exact decide_eq_false fun he => by rw [he] at h; omega
  unfold isPySpace
  rw [key ' ' (by decide), key '\t' (by decide), key '\n' (by decide),
    key '\x0d' (by decide), key '\x0b' (by decide), key '\x0c' (by decide)]
  rfl

/-- Lower-casing does not change digit-hood. -/
theorem pyIsDigit_pyLowerChar (c : Char) :
    pyIsDigit (pyLowerChar c) = pyIsDigit c := by
  unfold pyLowerChar
  split
  · rename_i h
    have ht : (Char.ofNat (c.toNat + 32)).toNat = c.toNat + 32 :=
      toNat_charOfNat_of_lt _ (by omega)
    unfold pyIsDigit
    rw [ht, decide_eq_false (show ¬ (c.toNat + 32 ≤ 57) by omega),
      decide_eq_false (show ¬ (c.toNat ≤ 57) by omega), Bool.and_false, Bool.and_false]
  · rfl

/-- Lower-casing does not change whitespace-hood. -/
theorem isPySpace_pyLowerChar (c : Char) :
    isPySpace (pyLowerChar c) = isPySpace c := by
  unfold pyLowerChar
  split
  · rename_i h
    have ht : (Char.ofNat (c.toNat + 32)).toNat = c.toNat + 32 :=
      toNat_charOfNat_of_lt _ (by omega)
    rw [isPySpace_false_of_ge48 (Char.ofNat (c.toNat + 32)) (by rw [ht]; omega),
      isPySpace_false_of_ge48 c (by omega)]
  · rfl

/-- A digit has code point at least 48. -/
theorem ge48_of_pyIsDigit (c : Char) (h : pyIsDigit c = true) : 48 ≤ c.toNat := by
  simp only [pyIsDigit, Bool.and_eq_true, decide_eq_true_eq] at h
  exact h.1

/-- A non-`p` element of a list survives `dropWhile p`. -/
theorem mem_dropWhile_of_mem (p : Char → Bool) (l : List Char) (c : Char)
    (hc : c ∈ l) (hp : p c = false) : c ∈ l.dropWhile p := by
  induction l with
  | nil => exact absurd hc (by simp)
  | cons x xs ih =>
    rw [List.dropWhile_cons]
    split
    · rename_i hpx
      rcases List.mem_cons.mp hc with rfl | hmem
      · rw [hpx] at hp; exact absurd hp (by simp)
      · exact ih hmem
    · exact hc

/-- Elements of `dropWhile p l` are elements of `l`. -/
theorem mem_of_mem_dropWhile (p : Char → Bool) (l : List Char) (c : Char)
    (h : c ∈ l.dropWhile p) : c ∈ l := by
  induction l with
  | nil => simpa using h
  | cons x xs ih =>
    rw [List.dropWhile_cons] at h
    revert h
    split
    · exact fun h => List.mem_cons_of_mem x (ih h)
    · exact fun h => h

/-- For a non-whitespace character, membership in the stripped list is
membership in the original list. -/
theorem mem_stripChars_iff (l : List Char) (c : Char) (hns : isPySpace c = false) :
    c ∈ stripChars l ↔ c ∈ l := by
  unfold stripChars
  constructor
  · intro h
    rw [List.mem_reverse] at h
    have h2 := mem_of_mem_dropWhile _ _ _ h
    rw [List.mem_reverse] at h2
    exact mem_of_mem_dropWhile _ _ _ h2
  · intro h
    rw [List.mem_reverse]
    apply mem_dropWhile_of_mem _ _ _ _ hns
    rw [List.mem_reverse]
    exact mem_dropWhile_of_mem _ _ _ h hns

/-- The number scanner fails exactly on digit-free text. -/
theorem firstNumberMatch_eq_none_iff (l : List Char) :
    firstNumberMatch l = none ↔ ∀ c ∈ l, pyIsDigit c = false := by
  induction l with
  | nil => simp [firstNumberMatch]
  | cons c rest ih =>
    unfold firstNumberMatch
    split
    · rename_i hd
      simp only [List.mem_cons]
      constructor
      · intro h; exact absurd h (by simp)
      · intro h
        have := h c (Or.inl rfl)
        rw [hd] at this
        exact absurd this (by simp)
    · rename_i hd
      rw [ih]
      simp only [List.mem_cons]
      constructor
      · rintro h c' (rfl | hmem)
        · exact Bool.not_eq_true _ ▸ Bool.eq_false_iff.mpr (fun he => by rw [he] at hd; exact hd rfl)
        · exact h c' hmem
      · intro h c' hmem
        exact h c' (Or.inr hmem)

/-- Digit-freeness transfers between the raw text and the lower-cased
stripped text the parser scans. -/
theorem noDigit_norm_iff (s : String) :
    (∀ c ∈ (pyStrip (pyLower s)).data, pyIsDigit c = false) ↔
      (∀ c ∈ s.data, pyIsDigit c = false) := by
  constructor
  · intro H c hc
    cases hd : pyIsDigit c with
    | false => rfl
    | true =>
      have hmem : pyLowerChar c ∈ (s.data.map pyLowerChar) := List.mem_map_of_mem _ hc
      have hdig : pyIsDigit (pyLowerChar c) = true := by rw [pyIsDigit_pyLowerChar, hd]
      have hnsp : isPySpace (pyLowerChar c) = false :=
        isPySpace_false_of_ge48 _ (ge48_of_pyIsDigit _ hdig)
      have hstr : pyLowerChar c ∈ stripChars (s.data.map pyLowerChar) :=
        (mem_stripChars_iff _ _ hnsp).mpr hmem
      have := H (pyLowerChar c) hstr
      rw [this] at hdig
      exact absurd hdig (by simp)
  · intro H c hc
    have hc2 : c ∈ s.data.map pyLowerChar :=
      mem_of_mem_dropWhile _ _ _
        ((List.mem_reverse).mp (mem_of_mem_dropWhile _ _ _ ((List.mem_reverse).mp hc)))
    obtain ⟨c0, hc0, rfl⟩ := List.mem_map.mp hc2
    rw [pyIsDigit_pyLowerChar]
    exact H c0 hc0

/-- The stripped list is an infix of the original list. -/
theorem stripChars_isInf (l : List Char) : stripChars l <:+: l := by
  obtain ⟨t, ht⟩ : l.dropWhile isPySpace <:+ l := List.dropWhile_suffix isPySpace
  obtain ⟨u, hu⟩ : (l.dropWhile isPySpace).reverse.dropWhile isPySpace <:+
      (l.dropWhile isPySpace).reverse := List.dropWhile_suffix isPySpace
  refine ⟨t, u.reverse, ?_⟩
  have h1 : l.dropWhile isPySpace = stripChars l ++ u.reverse := by
    have := congrArg List.reverse hu
    rw [List.reverse_append, List.reverse_reverse] at this
    exact this.symm
  calc t ++ stripChars l ++ u.reverse
      = t ++ (stripChars l ++ u.reverse) := by rw [List.append_assoc]
    _ = t ++ l.dropWhile isPySpace := by rw [← h1]
    _ = l := ht

/-- A non-empty all-non-`p` word that is an infix survives `dropWhile p`. -/
theorem inf_dropWhile (p : Char → Bool) (w l : List Char) (hw : w ≠ [])
    (hns : ∀ c ∈ w, p c = false) (h : w <:+: l) : w <:+: l.dropWhile p := by
  induction l with
  | nil =>
    obtain ⟨s, t, hst⟩ := h
    rw [List.append_eq_nil] at hst
    rw [List.append_eq_nil] at hst
    exact absurd hst.1.2 hw
  | cons x xs ih =>
    rw [List.dropWhile_cons]
    split
    · rename_i hpx
      apply ih
      obtain ⟨s, t, hst⟩ := h
      cases s with
      | nil =>
        cases w with
        | nil => exact absurd rfl hw
        | cons w0 w' =>
          simp only [List.nil_append, List.cons_append, List.cons.injEq] at hst
          have := hns w0 (List.mem_cons_self _ _)
          rw [hst.1] at this
          rw [this] at hpx
          exact absurd hpx (by simp)
      | cons s0 s' =>
        simp only [List.cons_append, List.cons.injEq] at hst
        exact ⟨s', t, hst.2⟩
    · exact h

/-- Infixes reverse. -/
theorem inf_reverse (w l : List Char) (h : w <:+: l) : w.reverse <:+: l.reverse := by
  obtain ⟨s, t, hst⟩ := h
  refine ⟨t.reverse, s.reverse, ?_⟩
  rw [← hst]
  simp [List.reverse_append, List.append_assoc]

/-- A non-empty all-non-whitespace word is an infix of the stripped list
iff it is an infix of the original list. -/
theorem inf_stripChars_iff (w l : List Char) (hw : w ≠ [])
    (hns : ∀ c ∈ w, isPySpace c = false) : (w <:+: stripChars l) ↔ (w <:+: l) := by
  constructor
  · exact fun h => h.trans (stripChars_isInf l)
  · intro h
    have h1 := inf_dropWhile isPySpace w l hw hns h
    have h2 := inf_reverse _ _ h1
    have h3 := inf_dropWhile isPySpace w.reverse _ (by simpa using hw)
      (fun c hc => hns c ((List.mem_reverse).mp hc)) h2
    have h4 := inf_reverse _ _ h3
    rw [List.reverse_reverse] at h4
    exact h4

-- -------------------- C6 --------------------

/-- C6: the parser fails (returns the explicit `none`, never raising)
exactly when the text is empty/whitespace-only, or contains no substring
matching the decimal-number pattern (no digit at all), or contains none of
the four vocabulary words as a substring (case-insensitively: the scan
runs on the lower-cased text); in every other case it returns a triple
whose category is one of the four vocabulary words. -/
theorem parse_nl_failure_iff (now : Timestamp) (s : String) :
    (parse_nl_expense now s = none ↔
      pyStrip s = "" ∨ (∀ c ∈ s.data, pyIsDigit c = false) ∨
        ∀ w ∈ vocab, ¬ (w.data <:+: (pyLower s).data)) ∧
    (∀ a cat dt, parse_nl_expense now s = some (a, cat, dt) → cat ∈ vocab) := by
  have hvoc : ∀ w ∈ vocab, w.data ≠ [] ∧ ∀ c ∈ w.data, isPySpace c = false := by decide
  by_cases h1 : pyStrip s = ""
  · refine ⟨⟨fun _ => Or.inl h1, fun _ => ?_⟩, fun a cat dt h => ?_⟩
    · simp only [parse_nl_expense]
      rw [if_pos h1]
    · simp only [parse_nl_expense] at h
      rw [if_pos h1] at h
      exact absurd h (by simp)
  · cases hn : firstNumberMatch (pyStrip (pyLower s)).data with
    | none =>
      have hnod : ∀ c ∈ s.data, pyIsDigit c = false :=
        (noDigit_norm_iff s).mp ((firstNumberMatch_eq_none_iff _).mp hn)
      refine ⟨⟨fun _ => Or.inr (Or.inl hnod), fun _ => ?_⟩, fun a cat dt h => ?_⟩
      · simp only [parse_nl_expense]
        rw [if_neg h1, hn]
      · simp only [parse_nl_expense] at h
        rw [if_neg h1, hn] at h
        exact absurd h (by simp)
    | some q =>
      cases hc : firstCat (pyStrip (pyLower s)).data with
      | none =>
        have hnovocab : ∀ w ∈ vocab, ¬ (w.data <:+: (pyLower s).data) := by
          intro w hw hinf
          have hfacts := hvoc w hw
          have hstrip : w.data <:+: (pyStrip (pyLower s)).data :=
            (inf_stripChars_iff w.data (pyLower s).data hfacts.1 hfacts.2).mpr hinf
          have hnone := List.find?_eq_none.mp hc w hw
          apply hnone
          simp only [liInfix]
          exact decide_eq_true hstrip
        refine ⟨⟨fun _ => Or.inr (Or.inr hnovocab), fun _ => ?_⟩, fun a cat dt h => ?_⟩
        · simp only [parse_nl_expense]
          rw [if_neg h1, hn, hc]
        · simp only [parse_nl_expense] at h
          rw [if_neg h1, hn, hc] at h
          exact absurd h (by simp)
      | some cat0 =>
        have hcatmem : cat0 ∈ vocab := List.mem_of_find?_eq_some hc
        have hcattrue := List.find?_some hc
        simp only [liInfix] at hcattrue
        refine ⟨⟨fun hnone => ?_, ?_⟩, fun a cat dt h => ?_⟩
        · simp only [parse_nl_expense] at hnone
          rw [if_neg h1, hn, hc] at hnone
          exact absurd hnone (by simp)
        · rintro (hA | hB | hC)
          · exact absurd hA h1
          · have hfn : firstNumberMatch (pyStrip (pyLower s)).data = none :=
              (firstNumberMatch_eq_none_iff _).mpr ((noDigit_norm_iff s).mpr hB)
            exact absurd (hfn.symm.trans hn) (by simp)
          · have hinfstrip : cat0.data <:+: (pyStrip (pyLower s)).data :=
              of_decide_eq_true hcattrue
            have hfacts := hvoc cat0 hcatmem
            have hinf : cat0.data <:+: (pyLower s).data :=
              (inf_stripChars_iff _ _ hfacts.1 hfacts.2).mp hinfstrip
            exact absurd hinf (hC cat0 hcatmem)
        · simp only [parse_nl_expense] at h
          rw [if_neg h1, hn, hc] at h
          simp only [Option.some.injEq, Prod.mk.injEq] at h
          obtain ⟨-, hcat, -⟩ := h
          rw [← hcat]
          exact hcatmem

/-- C6 witness: "50 dollars" (a number but no vocabulary word) fails, and
a successful parse ("200 food today") yields a vocabulary category. -/
theorem parse_nl_failure_iff_witness :
    parse_nl_expense now0 "50 dollars" = none ∧ ("food" : String) ∈ vocab :=
  ⟨(parse_nl_failure_iff now0 "50 dollars").1.mpr (Or.inr (Or.inr (by decide))),
   (parse_nl_failure_iff now0 "200 food today").2 200 "food" now0 (by decide)⟩
